import Mathlib

/-
Verification of the frame-buffer recycling pool in src/main.rs
(waynr/wasm-renderer).

The Rust program keeps a pool of hand-rolled atomically reference-counted
pixel buffers (`Frame`, pointing at a heap-allocated `InnerFrame`), acquires
a free one each tick, copies the wasm engine's linear memory into it and
stores a clone as the most recently published frame.

Shallow embedding conventions:
  * The heap of `InnerFrame` allocations is a list indexed by addresses
    (modelling the `NonNull<InnerFrame>` pointers); a `Frame` handle is an
    address, and the `rc` field counts the outstanding handles.
  * `usize` arithmetic on the reference count is `Nat` taken `% 2^64`
    where the code can wrap (`fetch_add` / `fetch_sub`).
  * The wasm engine (wasmer `Store` / `Instance`) is abstracted by its
    linear memory, a list of bytes, and a step function
    `List Nat → Option (List Nat)` (`none` models a trap of the exported
    `tick` function, which the Rust code turns into a panic via `expect`).
  * Fallible operations return `Except` / explicit outcome types; a Rust
    panic (`expect`) and `std::process::abort` are distinguished outcomes.
-/

namespace WasmRenderer

/-- Modulus of `usize` arithmetic (64-bit target). -/
def usizeMod : Nat := 2 ^ 64

/-- `isize::MAX as usize` on a 64-bit target, the clone overflow guard. -/
def isizeMax : Nat := 2 ^ 63 - 1

/-- `wasmer::WASM_PAGE_SIZE`. -/
def WASM_PAGE_SIZE : Nat := 65536

/-- The heap allocation behind a `Frame` handle (struct `InnerFrame`):
reference count, pixel byte buffer, and an `alive` flag modelling whether
the `Box` is still allocated (false once `Drop` ran `Box::from_raw`).
The `Mutex<()>` write lock is not represented: in the sequential embedding
`lock()` always succeeds. -/
structure InnerFrame where
  rc : Nat
  buf : List Nat
  alive : Bool
deriving Repr, DecidableEq

/-- The heap: address `p` denotes the allocation `h.getD p deadFrame`. -/
abbrev Heap := List InnerFrame

/-- Default returned for a dangling address (never reached by the program's
own addresses, which are always in range). -/
def deadFrame : InnerFrame := { rc := 0, buf := [], alive := false }

def heapGet (h : Heap) (p : Nat) : InnerFrame := h.getD p deadFrame

def heapSet (h : Heap) (p : Nat) (f : InnerFrame) : Heap := h.set p f

/-- `Frame::new(size)`: a fresh allocation with reference count 1 and a
zero-filled buffer of `size` bytes. -/
def InnerFrame.new (size : Nat) : InnerFrame :=
  { rc := 1, buf := List.replicate size 0, alive := true }

/-- `impl Clone for Frame`: `fetch_add(1)` on the count, then abort the
process (`none`) when the value read was at least `isize::MAX`. -/
def frameClone (h : Heap) (p : Nat) : Option Heap :=
  let inner := heapGet h p
  let old_rc := inner.rc
  if old_rc ≥ isizeMax then none
  else some (heapSet h p { inner with rc := (old_rc + 1) % usizeMod })

/-- `impl Drop for Frame`: `fetch_sub(1)`; when the value read was 1 the
count reached zero and the `Box` is deallocated (`alive := false`),
otherwise only the decremented count is stored (wrapping like `usize`). -/
def frameDrop (h : Heap) (p : Nat) : Heap :=
  let inner := heapGet h p
  if inner.rc = 1 then
    heapSet h p { inner with rc := 0, alive := false }
  else
    heapSet h p { inner with rc := (inner.rc + (usizeMod - 1)) % usizeMod }

/-- `Frame::copy_from_memory(view)`: takes the per-frame lock and runs
`view.read(0, buf)`, which fills the whole buffer from memory offset 0 and
fails with a memory access error when the read range exceeds the view.
No reference count is consulted. -/
def copyFromMemory (h : Heap) (p : Nat) (mem : List Nat) :
    Except String Heap :=
  let inner := heapGet h p
  if inner.buf.length ≤ mem.length then
    Except.ok (heapSet h p { inner with buf := mem.take inner.buf.length })
  else
    Except.error "memory access out of bounds"

/-- struct `FrameManager`: the constructor parameter `size` (the per-frame
byte size), the vector of frame handles (addresses), and the optional
`last_updated` published handle. -/
structure FrameManager where
  size : Nat
  frames : List Nat
  last_updated : Option Nat
deriving Repr, DecidableEq

/-- `FrameManager::new(size)`: allocates the frame vector — five frames of
`size` bytes each, written as five literal `Frame::new(size)` calls in the
source — and starts with no published frame. Returns the heap holding the
five allocations (addresses 0..4) together with the manager. -/
def FrameManager.new (size : Nat) : Heap × FrameManager :=
  ([InnerFrame.new size, InnerFrame.new size, InnerFrame.new size,
    InnerFrame.new size, InnerFrame.new size],
   { size := size, frames := [0, 1, 2, 3, 4], last_updated := none })

/-- Outcome of `FrameManager::get_free_frame`. `aborted` is the process
abort that `Frame::clone` would perform on count overflow. -/
inductive PoolResult where
  | ok (h : Heap) (p : Nat)
  | exhausted
  | aborted
deriving Repr, DecidableEq

/-- `FrameManager::get_free_frame`: scan `frames` in vector order for the
first frame whose `Frame::count` loads 1, and return a clone of it;
error (`exhausted`) when none is found. -/
def getFreeFrame (h : Heap) (fm : FrameManager) : PoolResult :=
  match fm.frames.find? (fun p => (heapGet h p).rc == 1) with
  | none => PoolResult.exhausted
  | some p =>
    match frameClone h p with
    | none => PoolResult.aborted
    | some h2 => PoolResult.ok h2 p

/-- enum `State` of the runner. -/
inductive RState where
  | Idle
  | Running
deriving Repr, DecidableEq

/-- struct `WasmDemoRunner`, with the wasmer store/instance abstracted to
the engine linear memory `mem` (the exported "image_buffer"). -/
structure Runner where
  mem : List Nat
  width : Nat
  height : Nat
  bytes_required : Nat
  fm : FrameManager
  heap : Heap
  state : RState
deriving Repr, DecidableEq

/-- The page count the constructor requests when the memory is too small:
`bytes_required / wasmer::WASM_PAGE_SIZE as u64 + 1` (line 202). -/
def pagesRequired (bytes_required : Nat) : Nat :=
  bytes_required / WASM_PAGE_SIZE + 1

/-- `WasmDemoRunner::new`, given the instantiated engine's initial linear
memory: width and height are fixed at 256, `bytes_required = w*h*4`; when
the view's `data_size()` is below it, `memory.grow(pages_required)` appends
that many zeroed pages; then the frame manager is built with
`FrameManager::new(bytes_required)`. -/
def runnerNew (initMem : List Nat) : Runner :=
  let width := 256
  let height := 256
  let bytes_required := width * height * 4
  let mem :=
    if initMem.length < bytes_required then
      initMem ++ List.replicate (pagesRequired bytes_required * WASM_PAGE_SIZE) 0
    else initMem
  let hfm := FrameManager.new bytes_required
  { mem := mem
    width := width
    height := height
    bytes_required := bytes_required
    fm := hfm.2
    heap := hfm.1
    state := RState.Running }

/-- Outcome of one `tick()`: `ok`, a tick-local `Err` propagated by `?`,
a process panic from `expect`, or a process abort from `Frame::clone`. -/
inductive TickOutcome where
  | ok
  | err (msg : String)
  | panic (msg : String)
  | abort
deriving Repr, DecidableEq

/-- The part of `tick()` after the engine step returned the (possibly
updated) memory `mem2`: acquire a free frame, copy the view into it,
store a clone as `last_updated`, and drop the local `frame` handle when it
goes out of scope — also on the error path after a failed copy. -/
def tickAfterStep (s : Runner) (mem2 : List Nat) : TickOutcome × Runner :=
  match getFreeFrame s.heap s.fm with
  | PoolResult.exhausted =>
      (TickOutcome.err "couldn\'t find free frame", { s with mem := mem2 })
  | PoolResult.aborted => (TickOutcome.abort, { s with mem := mem2 })
  | PoolResult.ok h2 p =>
    match copyFromMemory h2 p mem2 with
    | Except.error e =>
        (TickOutcome.err e, { s with mem := mem2, heap := frameDrop h2 p })
    | Except.ok h3 =>
      match frameClone h3 p with
      | none => (TickOutcome.abort, { s with mem := mem2, heap := h3 })
      | some h4 =>
          (TickOutcome.ok,
           { s with
             mem := mem2
             heap := frameDrop h4 p
             fm := { s.fm with last_updated := some p } })

/-- `WasmDemoRunner::tick` (lines 253-274). Its first statement is
`self.frame_manager.last_updated = None;`, which drops the previously
published handle. Then the exported `tick` function is called — a trap
panics the process via `expect` (`stepFn` returns `none`). The
`get_memory("image_buffer")?` lookup always succeeds for the runner's
fixed instance (the constructor checked the export), so the view is the
engine memory returned by the step. -/
def tick (stepFn : List Nat → Option (List Nat)) (s : Runner) :
    TickOutcome × Runner :=
  let s1 := { s with
              heap := (match s.fm.last_updated with
                       | none => s.heap
                       | some q => frameDrop s.heap q)
              fm := { s.fm with last_updated := none } }
  match stepFn s.mem with
  | none =>
      (TickOutcome.panic "calling tick function instance from module", s1)
  | some mem2 => tickAfterStep s1 mem2

/-- The bytes a consumer reads through `last_published()` (the spec's
accessor over `frame_manager.last_updated`): `none` is the "no frame yet"
state, otherwise the published frame's buffer. -/
def lastPublishedBytes (s : Runner) : Option (List Nat) :=
  s.fm.last_updated.map (fun p => (heapGet s.heap p).buf)

/-- The spec's `publish(handle)` operation, as the source implements it at
line 272: `self.frame_manager.last_updated = Some(frame.clone());` — the
right-hand side clones the handle (possibly aborting on count overflow),
then the assignment drops the previous value of `last_updated`. No bytes
are copied. -/
def publish (h : Heap) (fm : FrameManager) (p : Nat) :
    Option (Heap × FrameManager) :=
  match frameClone h p with
  | none => none
  | some h1 =>
    let h2 := match fm.last_updated with
              | none => h1
              | some q => frameDrop h1 q
    some (h2, { fm with last_updated := some p })

/-- An engine step that leaves memory unchanged and never traps (used for
concrete executions). -/
def stepId : List Nat → Option (List Nat) := fun m => some m

/-! ### Concrete states for counterexamples and witnesses -/

/-- A 1×1 runner whose frame 0 is published (count 3: pool slot, the
published handle, one consumer) while frames 1-4 are each also held by a
consumer (count 2), so no slot is free. -/
def heldRunner : Runner :=
  { mem := [5, 6, 7, 8]
    width := 1
    height := 1
    bytes_required := 4
    fm := { size := 4, frames := [0, 1, 2, 3, 4], last_updated := some 0 }
    heap := [{ rc := 3, buf := [1, 2, 3, 4], alive := true },
             { rc := 2, buf := [0, 0, 0, 0], alive := true },
             { rc := 2, buf := [0, 0, 0, 0], alive := true },
             { rc := 2, buf := [0, 0, 0, 0], alive := true },
             { rc := 2, buf := [0, 0, 0, 0], alive := true }]
    state := RState.Running }

/-- A fresh 2×2 RGBA runner (16 required bytes) over the given engine
memory. -/
def freshRunner (m : List Nat) : Runner :=
  { mem := m
    width := 2
    height := 2
    bytes_required := 16
    fm := (FrameManager.new 16).2
    heap := (FrameManager.new 16).1
    state := RState.Running }

/-- A heap whose first frame is held elsewhere (count 2) while the next two
are free (count 1). -/
def heldFirstHeap : Heap :=
  [{ rc := 2, buf := [0], alive := true },
   { rc := 1, buf := [0], alive := true },
   { rc := 1, buf := [0], alive := true }]

def heldFirstPool : FrameManager :=
  { size := 1, frames := [0, 1, 2], last_updated := none }

/-- `heldFirstHeap` after cloning frame 1 (what `get_free_frame` returns). -/
def heldFirstHeapAfter : Heap :=
  [{ rc := 2, buf := [0], alive := true },
   { rc := 2, buf := [0], alive := true },
   { rc := 1, buf := [0], alive := true }]

/-- A pool in which every slot is held by an outstanding consumer handle
(count 2 each). -/
def exhaustedHeap : Heap :=
  [{ rc := 2, buf := [0], alive := true },
   { rc := 2, buf := [0], alive := true },
   { rc := 2, buf := [0], alive := true },
   { rc := 2, buf := [0], alive := true },
   { rc := 2, buf := [0], alive := true }]

def exhaustedPool : FrameManager :=
  { size := 1, frames := [0, 1, 2, 3, 4], last_updated := none }

/-- A single frame whose count is 3 (two holders besides the writer). -/
def sharedHeap : Heap := [{ rc := 3, buf := [0, 0], alive := true }]

/-- Two frames: frame 0 is the currently published one (count 2), frame 1
is about to be published (count 1). -/
def publishHeap : Heap :=
  [{ rc := 2, buf := [9, 9], alive := true },
   { rc := 1, buf := [4, 4], alive := true }]

def publishPool : FrameManager :=
  { size := 2, frames := [0, 1], last_updated := some 0 }

/-- `publishHeap` after `publish` of frame 1: frame 1 gained the published
clone, frame 0 lost the published handle. -/
def publishHeapAfter : Heap :=
  [{ rc := 1, buf := [9, 9], alive := true },
   { rc := 2, buf := [4, 4], alive := true }]

def publishPoolAfter : FrameManager :=
  { size := 2, frames := [0, 1], last_updated := some 1 }

/-! ### Heap lemmas -/

theorem heapGet_heapSet_self (h : Heap) (p : Nat) (f : InnerFrame)
    (hp : p < h.length) : heapGet (heapSet h p f) p = f := by
  simp [heapGet, heapSet, List.getD_eq_getElem?_getD, List.getElem?_set_self hp]

theorem heapGet_heapSet_ne (h : Heap) (p r : Nat) (f : InnerFrame)
    (hne : p ≠ r) : heapGet (heapSet h p f) r = heapGet h r := by
  simp [heapGet, heapSet, List.getD_eq_getElem?_getD, List.getElem?_set_ne hne]

theorem heapSet_length (h : Heap) (p : Nat) (f : InnerFrame) :
    (heapSet h p f).length = h.length :=
  List.length_set h p f

/-- An address whose frame carries a nonzero count is in range: a dangling
address reads `deadFrame`, whose count is 0. -/
theorem lt_length_of_rc_pos (h : Heap) (p : Nat)
    (hrc : 0 < (heapGet h p).rc) : p < h.length := by
  by_contra hge
  have : heapGet h p = deadFrame :=
    List.getD_eq_default h deadFrame (Nat.le_of_not_lt hge)
  rw [this] at hrc
  simp [deadFrame] at hrc

theorem frameClone_heapGet_ne (h h2 : Heap) (p r : Nat)
    (hc : frameClone h p = some h2) (hne : p ≠ r) :
    heapGet h2 r = heapGet h r := by
  simp only [frameClone] at hc
  split at hc
  · exact absurd hc (by simp)
  · cases hc
    exact heapGet_heapSet_ne h p r _ hne

theorem frameClone_buf (h h2 : Heap) (p r : Nat)
    (hc : frameClone h p = some h2) :
    (heapGet h2 r).buf = (heapGet h r).buf := by
  simp only [frameClone] at hc
  split at hc
  · exact absurd hc (by simp)
  · cases hc
    by_cases hpr : p = r
    · subst hpr
      by_cases hp : p < h.length
      · rw [heapGet_heapSet_self h p _ hp]
      · rw [heapSet, List.set_eq_of_length_le (Nat.le_of_not_lt hp)]
    · rw [heapGet_heapSet_ne h p r _ hpr]

theorem frameClone_length (h h2 : Heap) (p : Nat)
    (hc : frameClone h p = some h2) : h2.length = h.length := by
  simp only [frameClone] at hc
  split at hc
  · exact absurd hc (by simp)
  · cases hc
    exact heapSet_length h p _

theorem frameDrop_heapGet_ne (h : Heap) (p r : Nat) (hne : p ≠ r) :
    heapGet (frameDrop h p) r = heapGet h r := by
  simp only [frameDrop]
  split
  · exact heapGet_heapSet_ne h p r _ hne
  · exact heapGet_heapSet_ne h p r _ hne

theorem frameDrop_buf (h : Heap) (p r : Nat) :
    (heapGet (frameDrop h p) r).buf = (heapGet h r).buf := by
  by_cases hpr : p = r
  · subst hpr
    by_cases hp : p < h.length
    · simp only [frameDrop]
      split
      · rw [heapGet_heapSet_self h p _ hp]
      · rw [heapGet_heapSet_self h p _ hp]
    · simp only [frameDrop]
      split
      · rw [heapSet, List.set_eq_of_length_le (Nat.le_of_not_lt hp)]
      · rw [heapSet, List.set_eq_of_length_le (Nat.le_of_not_lt hp)]
  · rw [frameDrop_heapGet_ne h p r hpr]

theorem frameDrop_length (h : Heap) (p : Nat) :
    (frameDrop h p).length = h.length := by
  simp only [frameDrop]
  split
  · exact heapSet_length h p _
  · exact heapSet_length h p _

/-- `List.find?` returns the first element satisfying the predicate. -/
theorem find_first_of_find?_eq_some {α : Type} (pred : α → Bool) :
    ∀ (l : List α) (a : α), l.find? pred = some a →
    ∃ i, i < l.length ∧ l[i]? = some a ∧ pred a = true ∧
      ∀ j, j < i → ∀ b, l[j]? = some b → pred b = false := by
  intro l
  induction l with
  | nil => intro a ha; simp at ha
  | cons x xs ih =>
    intro a ha
    rw [List.find?_cons] at ha
    cases hx : pred x with
    | true =>
      rw [hx] at ha
      simp only [Option.some.injEq] at ha
      subst ha
      exact ⟨0, by simp, by simp, hx, fun j hj => absurd hj (by omega)⟩
    | false =>
      rw [hx] at ha
      obtain ⟨i, hi, hgs, hpa, hfirst⟩ := ih a ha
      refine ⟨i + 1, by simpa using hi, by simpa using hgs, hpa, ?_⟩
      intro j hj b hb
      match j with
      | 0 =>
        simp at hb
        rw [← hb]
        exact hx
      | j + 1 =>
        exact hfirst j (by omega) b (by simpa using hb)

/-! ### Tick shape lemmas -/

theorem tickAfterStep_frames (s : Runner) (mem2 : List Nat) :
    (tickAfterStep s mem2).2.fm.frames = s.fm.frames := by
  unfold tickAfterStep
  split
  · rfl
  · rfl
  · split
    · rfl
    · split
      · rfl
      · rfl

theorem tickAfterStep_mem (s : Runner) (mem2 : List Nat) :
    (tickAfterStep s mem2).2.mem = mem2 := by
  unfold tickAfterStep
  split
  · rfl
  · rfl
  · split
    · rfl
    · split
      · rfl
      · rfl

/-- Facts packaged out of a successful `get_free_frame`: the returned
address is a pool slot, its count was exactly 1 at selection, and the
returned handle is its clone. -/
theorem getFreeFrame_ok_spec (h : Heap) (fm : FrameManager) (h2 : Heap)
    (p : Nat) (hok : getFreeFrame h fm = PoolResult.ok h2 p) :
    p ∈ fm.frames ∧ (heapGet h p).rc = 1 ∧ frameClone h p = some h2 := by
  unfold getFreeFrame at hok
  cases hfind : fm.frames.find? (fun q => (heapGet h q).rc == 1) with
  | none => rw [hfind] at hok; exact absurd hok (by simp)
  | some p2 =>
    rw [hfind] at hok
    simp only [] at hok
    cases hcl : frameClone h p2 with
    | none => rw [hcl] at hok; exact absurd hok (by simp)
    | some h3 =>
      rw [hcl] at hok
      simp only [PoolResult.ok.injEq] at hok
      obtain ⟨hh, hp2⟩ := hok
      subst hp2
      subst hh
      exact ⟨List.mem_of_find?_eq_some hfind,
             by simpa using List.find?_some hfind, hcl⟩

/-! ### Claims -/

/-- C7: `get_free_frame` scans the slots in the fixed vector order and
returns (a clone of) the first slot whose ownership count equals 1 at the
moment of selection; every earlier slot's count differs from 1, and the
selected slot's count is exactly 1. -/
theorem getFreeFrame_selects_first (h : Heap) (fm : FrameManager)
    (h2 : Heap) (p : Nat) (hok : getFreeFrame h fm = PoolResult.ok h2 p) :
    (heapGet h p).rc = 1 ∧
    ∃ i, i < fm.frames.length ∧ fm.frames[i]? = some p ∧
      ∀ j, j < i → ∀ q, fm.frames[j]? = some q → (heapGet h q).rc ≠ 1 := by
  unfold getFreeFrame at hok
  cases hfind : fm.frames.find? (fun q => (heapGet h q).rc == 1) with
  | none => rw [hfind] at hok; exact absurd hok (by simp)
  | some p2 =>
    rw [hfind] at hok
    simp only [] at hok
    cases hcl : frameClone h p2 with
    | none => rw [hcl] at hok; exact absurd hok (by simp)
    | some h3 =>
      rw [hcl] at hok
      simp only [PoolResult.ok.injEq] at hok
      obtain ⟨hh, hp2⟩ := hok
      subst hp2
      obtain ⟨i, hi, hgs, hpa, hfirst⟩ :=
        find_first_of_find?_eq_some _ fm.frames _ hfind
      refine ⟨by simpa using hpa, i, hi, hgs, ?_⟩
      intro j hj q hq
      simpa using hfirst j hj q hq

/-- C7 witness: on `heldFirstHeap` the first slot has count 2, so
`get_free_frame` selects slot 1, whose count is 1. -/
theorem getFreeFrame_selects_first_witness :
    (heapGet heldFirstHeap 1).rc = 1 :=
  (getFreeFrame_selects_first heldFirstHeap heldFirstPool heldFirstHeapAfter 1
    (by decide)).1

/-- C8: when every slot's ownership count exceeds 1 (e.g. one outstanding
consumer handle per slot), `get_free_frame` returns the pool-exhausted
error rather than a held slot. The model is a total function, so the
result is immediate — there is no blocking or waiting to model. -/
theorem getFreeFrame_pool_exhausted (h : Heap) (fm : FrameManager)
    (hall : ∀ p ∈ fm.frames, 1 < (heapGet h p).rc) :
    getFreeFrame h fm = PoolResult.exhausted := by
  unfold getFreeFrame
  have hnone : fm.frames.find? (fun q => (heapGet h q).rc == 1) = none := by
    rw [List.find?_eq_none]
    intro q hq
    have := hall q hq
    simp only [beq_iff_eq]
    omega
  rw [hnone]

/-- C8 witness: five slots, five outstanding consumer handles (count 2
each), and the next acquisition fails. -/
theorem getFreeFrame_pool_exhausted_witness :
    getFreeFrame exhaustedHeap exhaustedPool = PoolResult.exhausted :=
  getFreeFrame_pool_exhausted exhaustedHeap exhaustedPool (by decide)

/-- C10: `Frame::clone` increments the shared count by exactly 1, and when
the count read is at least `isize::MAX` the process aborts (`none`), so
the count stays below the `usize` modulus and never wraps around. -/
theorem clone_count_guard (h : Heap) (p : Nat) :
    (isizeMax ≤ (heapGet h p).rc → frameClone h p = none) ∧
    ((heapGet h p).rc < isizeMax →
      frameClone h p =
        some (heapSet h p { heapGet h p with rc := (heapGet h p).rc + 1 }) ∧
      (heapGet h p).rc + 1 < usizeMod) := by
  constructor
  · intro hge
    simp only [frameClone]
    rw [if_pos hge]
  · intro hlt
    have hmod : (heapGet h p).rc + 1 < usizeMod := by
      simp only [isizeMax] at hlt
      simp only [usizeMod]
      norm_num at hlt ⊢
      omega
    refine ⟨?_, hmod⟩
    simp only [frameClone]
    rw [if_neg (Nat.not_le.mpr hlt), Nat.mod_eq_of_lt hmod]

/-- C10 witness: cloning the free slot 1 of `heldFirstHeap` yields count 2
with no wrap. -/
theorem clone_count_guard_witness :
    frameClone heldFirstHeap 1 =
      some (heapSet heldFirstHeap 1
        { heapGet heldFirstHeap 1 with rc := (heapGet heldFirstHeap 1).rc + 1 }) :=
  ((clone_count_guard heldFirstHeap 1).2 (by decide)).1

/-- C5 counterexample: for a required length that is an exact page
multiple, the code requests `65536 / 65536 + 1 = 2` pages although a single
page already covers the requirement, so the request is not the least
covering page count. -/
theorem growth_rounding_counterexample :
    pagesRequired 65536 = 2 ∧ 65536 ≤ 1 * WASM_PAGE_SIZE ∧ (1 : Nat) < 2 := by
  decide

/-- C5 amended: the growth request is `required / page + 1` (floor division
plus one). It always covers the requirement, and it equals the
rounded-up page count exactly when the required length is not a multiple
of the page size; in particular 70,000 bytes yield a 2-page request. -/
theorem pages_required_floor_plus_one (L : Nat) :
    L ≤ pagesRequired L * WASM_PAGE_SIZE ∧
    (L % WASM_PAGE_SIZE ≠ 0 →
      pagesRequired L = (L + (WASM_PAGE_SIZE - 1)) / WASM_PAGE_SIZE) ∧
    pagesRequired 70000 = 2 := by
  simp only [pagesRequired, WASM_PAGE_SIZE]
  refine ⟨by omega, by omega, by norm_num⟩

/-- C5 amended witness at the spec's own example, 70,000 bytes. -/
theorem pages_required_floor_plus_one_witness :
    70000 % WASM_PAGE_SIZE ≠ 0 ∧
    pagesRequired 70000 = (70000 + (WASM_PAGE_SIZE - 1)) / WASM_PAGE_SIZE :=
  ⟨by decide, (pages_required_floor_plus_one 70000).2.1 (by decide)⟩

/-- C6 counterexample: `FrameManager::new(3)` holds 5 frame slots, not 3 —
the constructor's parameter is the per-frame byte size (each buffer has
length 3), and the slot count is the hardcoded 5. -/
theorem frame_pool_count_counterexample :
    (FrameManager.new 3).2.frames.length = 5 ∧
    ((FrameManager.new 3).1.map (fun f => f.buf.length)) = [3, 3, 3, 3, 3] ∧
    (5 : Nat) ≠ 3 := by
  decide

/-- C6 amended: the pool always holds exactly five Frame slots, a count
hardcoded in the constructor (whose parameter is the per-frame byte size,
sizing each of the five buffers), and ticking never changes the slot
vector. -/
theorem frame_pool_hardcoded_five (n : Nat)
    (stepFn : List Nat → Option (List Nat)) (s : Runner) :
    (FrameManager.new n).2.frames.length = 5 ∧
    ((FrameManager.new n).1.map (fun f => f.buf.length)) = [n, n, n, n, n] ∧
    (tick stepFn s).2.fm.frames = s.fm.frames := by
  refine ⟨rfl, by simp [FrameManager.new, InnerFrame.new], ?_⟩
  simp only [tick]
  split
  · rfl
  · rw [tickAfterStep_frames]

/-- A tick that returns a tick-local error keeps the frame manager it
entered `tickAfterStep` with: no publish happens on a failed tick. -/
theorem tickAfterStep_err_keeps_fm (s : Runner) (mem2 : List Nat)
    (e : String) (hfail : (tickAfterStep s mem2).1 = TickOutcome.err e) :
    (tickAfterStep s mem2).2.fm = s.fm := by
  cases hg : getFreeFrame s.heap s.fm with
  | exhausted => simp only [tickAfterStep, hg]
  | aborted =>
    simp only [tickAfterStep, hg] at hfail
    exact absurd hfail (by simp)
  | ok h2 p =>
    cases hcp : copyFromMemory h2 p mem2 with
    | error e2 => simp only [tickAfterStep, hg, hcp]
    | ok h3 =>
      cases hcl : frameClone h3 p with
      | none =>
        simp only [tickAfterStep, hg, hcp, hcl] at hfail
        exact absurd hfail (by simp)
      | some h4 =>
        simp only [tickAfterStep, hg, hcp, hcl] at hfail
        exact absurd hfail (by simp)

/-- C1 counterexample: `heldRunner` has published bytes `[1, 2, 3, 4]` and
every slot held, so the next tick fails with the pool-exhausted error —
after which `last_published` is the no-frame state, not the previous
bytes: tick N-1's frame did not remain visible. -/
theorem failed_tick_counterexample :
    (tick stepId heldRunner).1 = TickOutcome.err "couldn\'t find free frame" ∧
    lastPublishedBytes heldRunner = some [1, 2, 3, 4] ∧
    lastPublishedBytes (tick stepId heldRunner).2 = none := by
  decide

/-- C1 amended: a failed tick publishes nothing, but it does not preserve
the previously published frame either — `tick` assigns
`last_updated = None` as its first statement, so any tick that returns an
error leaves the pool in the no-frame-published state. -/
theorem failed_tick_clears_published
    (stepFn : List Nat → Option (List Nat)) (s : Runner) (e : String)
    (hfail : (tick stepFn s).1 = TickOutcome.err e) :
    (tick stepFn s).2.fm.last_updated = none ∧
    lastPublishedBytes (tick stepFn s).2 = none := by
  cases hstep : stepFn s.mem with
  | none =>
    simp only [tick, hstep] at hfail
    exact absurd hfail (by simp)
  | some mem2 =>
    simp only [tick, hstep] at hfail ⊢
    have hfm := tickAfterStep_err_keeps_fm _ mem2 e hfail
    rw [hfm]
    exact ⟨rfl, by simp [lastPublishedBytes, hfm]⟩

/-- C1 amended witness: the failed tick on `heldRunner` leaves the pool
with no published frame. -/
theorem failed_tick_clears_published_witness :
    (tick stepId heldRunner).2.fm.last_updated = none ∧
    lastPublishedBytes (tick stepId heldRunner).2 = none :=
  failed_tick_clears_published stepId heldRunner "couldn\'t find free frame"
    (by decide)

/-- C2 counterexample: a frame with ownership count 3 — greater than 1 —
is overwritten by `copy_from_memory` without any failure: no count check
exists at the write site, and the bytes are mutated while the count is
not 1. -/
theorem copy_checked_counterexample :
    (heapGet sharedHeap 0).rc = 3 ∧
    copyFromMemory sharedHeap 0 [7, 8] =
      Except.ok [{ rc := 3, buf := [7, 8], alive := true }] ∧
    (heapGet sharedHeap 0).buf = [0, 0] :=
  ⟨by decide, rfl, by decide⟩

/-- C2 amended: `copy_from_memory` checks no ownership count — whenever
the view covers the buffer it overwrites the frame's bytes and succeeds
regardless of the count; and in the tick protocol the write in fact
happens while the count equals 2, because `get_free_frame` hands back a
clone of a count-1 slot. -/
theorem copy_from_memory_unchecked (h : Heap) (p : Nat) (mem : List Nat)
    (hrc : 1 < (heapGet h p).rc)
    (hlen : (heapGet h p).buf.length ≤ mem.length) :
    copyFromMemory h p mem =
      Except.ok (heapSet h p
        { heapGet h p with buf := mem.take (heapGet h p).buf.length }) ∧
    (∀ fm h2 q, getFreeFrame h fm = PoolResult.ok h2 q →
      (heapGet h2 q).rc = 2) := by
  constructor
  · simp only [copyFromMemory]
    rw [if_pos hlen]
  · intro fm h2 q hgf
    obtain ⟨hmem, hrc1, hclone⟩ := getFreeFrame_ok_spec h fm h2 q hgf
    have hq : q < h.length := lt_length_of_rc_pos h q (by omega)
    simp only [frameClone, hrc1] at hclone
    rw [if_neg (by norm_num [isizeMax])] at hclone
    simp only [Option.some.injEq] at hclone
    rw [← hclone, heapGet_heapSet_self h q _ hq]
    show (1 + 1) % usizeMod = 2
    decide

/-- C2 amended witness: the count-3 frame of `sharedHeap` is overwritten
successfully. -/
theorem copy_from_memory_unchecked_witness :
    copyFromMemory sharedHeap 0 [7, 8] =
      Except.ok (heapSet sharedHeap 0
        { heapGet sharedHeap 0 with
          buf := [7, 8].take (heapGet sharedHeap 0).buf.length }) :=
  (copy_from_memory_unchecked sharedHeap 0 [7, 8] (by decide) (by decide)).1

/-- C4 counterexample: a tick over an empty engine memory (0 bytes, 16
required) performs no growth — it fails at the copy step and leaves the
memory at length 0, below the requirement. -/
theorem tick_no_growth_counterexample :
    (freshRunner []).bytes_required = 16 ∧
    (tick stepId (freshRunner [])).1 =
      TickOutcome.err "memory access out of bounds" ∧
    (tick stepId (freshRunner [])).2.mem = [] := by
  decide

/-- C4 amended: memory sizing happens once, in the constructor — `new`
leaves the engine memory at least `bytes_required` long — while `tick`
itself never checks or grows the memory: after a tick the engine memory is
exactly whatever the engine step left (unchanged if the step did not run),
an undersized memory simply failing the copy. -/
theorem memory_sizing_at_construction_only (m : List Nat)
    (stepFn : List Nat → Option (List Nat)) (s : Runner) :
    (runnerNew m).bytes_required ≤ (runnerNew m).mem.length ∧
    (tick stepFn s).2.mem = (stepFn s.mem).getD s.mem := by
  constructor
  · have h1 : (runnerNew m).bytes_required = 262144 := rfl
    have h2 : (runnerNew m).mem =
        (if m.length < 262144 then m ++ List.replicate 327680 0 else m) := rfl
    rw [h1, h2]
    split
    · rw [List.length_append, List.length_replicate]
      omega
    · omega
  · simp only [tick]
    split
    · rename_i heq
      rw [heq]
      rfl
    · rename_i mem2 heq
      rw [tickAfterStep_mem, heq]
      rfl

/-- What a successful `Frame::clone` did: the count read was below the
guard, and the heap gained exactly one count at the cloned address. -/
theorem frameClone_some_spec (h h1 : Heap) (p : Nat)
    (hc : frameClone h p = some h1) :
    (heapGet h p).rc < isizeMax ∧
    h1 = heapSet h p { heapGet h p with rc := (heapGet h p).rc + 1 } := by
  simp only [frameClone] at hc
  split at hc
  · exact absurd hc (by simp)
  · rename_i hnge
    have hlt : (heapGet h p).rc < isizeMax := Nat.lt_of_not_le hnge
    have e1 : isizeMax = 9223372036854775807 := by norm_num [isizeMax]
    have e2 : usizeMod = 18446744073709551616 := by norm_num [usizeMod]
    have hmod : (heapGet h p).rc + 1 < usizeMod := by
      rw [e2]
      rw [e1] at hlt
      omega
    simp only [Option.some.injEq] at hc
    rw [← hc, Nat.mod_eq_of_lt hmod]
    exact ⟨hlt, rfl⟩

/-- `Drop` decrements the count by exactly one (for an in-range frame with
a count in the `usize` range). -/
theorem frameDrop_rc_self (h : Heap) (p : Nat) (hp : p < h.length)
    (hpos : 1 ≤ (heapGet h p).rc)
    (hrange : (heapGet h p).rc < usizeMod) :
    (heapGet (frameDrop h p) p).rc = (heapGet h p).rc - 1 := by
  simp only [frameDrop]
  by_cases hrc : (heapGet h p).rc = 1
  · rw [if_pos hrc, heapGet_heapSet_self h p _ hp]
    show (0 : Nat) = (heapGet h p).rc - 1
    omega
  · rw [if_neg hrc, heapGet_heapSet_self h p _ hp]
    show ((heapGet h p).rc + (usizeMod - 1)) % usizeMod = (heapGet h p).rc - 1
    have e2 : usizeMod = 18446744073709551616 := by norm_num [usizeMod]
    rw [e2] at hrange ⊢
    omega

/-- `Drop` deallocates the backing `Box` exactly when the count it
decrements reaches zero, i.e. when the count read was 1. -/
theorem frameDrop_alive_iff (h : Heap) (p : Nat)
    (halive : (heapGet h p).alive = true) :
    ((heapGet (frameDrop h p) p).alive = false ↔ (heapGet h p).rc = 1) := by
  have hp : p < h.length := by
    by_contra hge
    have hd : heapGet h p = deadFrame :=
      List.getD_eq_default h deadFrame (Nat.le_of_not_lt hge)
    rw [hd] at halive
    simp [deadFrame] at halive
  simp only [frameDrop]
  by_cases hrc : (heapGet h p).rc = 1
  · rw [if_pos hrc, heapGet_heapSet_self h p _ hp]
    simp [hrc]
  · rw [if_neg hrc, heapGet_heapSet_self h p _ hp]
    simp [halive, hrc]

/-- A successful pass of the post-step tick body publishes a frame whose
bytes are exactly the first `width*height*4` bytes of the engine memory it
copied. -/
theorem tickAfterStep_ok_publishes (s : Runner) (mem2 : List Nat)
    (hwf : ∀ p ∈ s.fm.frames,
      (heapGet s.heap p).buf.length = s.width * s.height * 4)
    (hok : (tickAfterStep s mem2).1 = TickOutcome.ok) :
    lastPublishedBytes (tickAfterStep s mem2).2 =
      some (mem2.take (s.width * s.height * 4)) := by
  cases hg : getFreeFrame s.heap s.fm with
  | exhausted =>
    simp only [tickAfterStep, hg] at hok
    exact absurd hok (by simp)
  | aborted =>
    simp only [tickAfterStep, hg] at hok
    exact absurd hok (by simp)
  | ok h2 p =>
    cases hcp : copyFromMemory h2 p mem2 with
    | error e =>
      simp only [tickAfterStep, hg, hcp] at hok
      exact absurd hok (by simp)
    | ok h3 =>
      cases hcl : frameClone h3 p with
      | none =>
        simp only [tickAfterStep, hg, hcp, hcl] at hok
        exact absurd hok (by simp)
      | some h4 =>
        obtain ⟨hmem, hrc1, hclone⟩ := getFreeFrame_ok_spec s.heap s.fm h2 p hg
        have hp : p < s.heap.length := lt_length_of_rc_pos s.heap p (by omega)
        have hp2 : p < h2.length := by
          rw [frameClone_length s.heap h2 p hclone]
          exact hp
        have hlen2 : (heapGet h2 p).buf.length = s.width * s.height * 4 := by
          rw [frameClone_buf s.heap h2 p p hclone]
          exact hwf p hmem
        have hbuf3 : (heapGet h3 p).buf = mem2.take (s.width * s.height * 4) := by
          simp only [copyFromMemory] at hcp
          split at hcp
          · injection hcp with hh
            rw [← hh, heapGet_heapSet_self h2 p _ hp2]
            show mem2.take (heapGet h2 p).buf.length =
              mem2.take (s.width * s.height * 4)
            rw [hlen2]
          · exact absurd hcp (by simp)
        simp only [tickAfterStep, hg, hcp, hcl, lastPublishedBytes]
        show some ((heapGet (frameDrop h4 p) p).buf) =
          some (mem2.take (s.width * s.height * 4))
        rw [frameDrop_buf h4 p p, frameClone_buf h3 h4 p p hcl, hbuf3]

/-- C3: every successful tick publishes exactly the engine memory bytes at
offset 0 of length `width*height*4`, as the memory stood at the copy (the
tick does not touch the memory after the engine step, so the post-tick
memory is the memory the copy read). The pool is assumed well-formed: each
slot's buffer has the configured length `width*height*4`, as
`FrameManager::new(bytes_required)` establishes. -/
theorem tick_success_publishes_memory
    (stepFn : List Nat → Option (List Nat)) (s : Runner)
    (hwf : ∀ p ∈ s.fm.frames,
      (heapGet s.heap p).buf.length = s.width * s.height * 4)
    (hok : (tick stepFn s).1 = TickOutcome.ok) :
    lastPublishedBytes (tick stepFn s).2 =
      some ((tick stepFn s).2.mem.take (s.width * s.height * 4)) := by
  cases hstep : stepFn s.mem with
  | none =>
    simp only [tick, hstep] at hok
    exact absurd hok (by simp)
  | some mem2 =>
    cases hlu : s.fm.last_updated with
    | none =>
      simp only [tick, hstep, hlu] at hok ⊢
      rw [tickAfterStep_mem]
      exact tickAfterStep_ok_publishes _ mem2 hwf hok
    | some q =>
      simp only [tick, hstep, hlu] at hok ⊢
      rw [tickAfterStep_mem]
      refine tickAfterStep_ok_publishes _ mem2 ?_ hok
      intro p hp
      rw [frameDrop_buf s.heap q p]
      exact hwf p hp

/-- C3 witness: a fresh 2×2 runner over the 16-byte memory `0..15`
publishes exactly those 16 bytes. -/
theorem tick_success_publishes_memory_witness :
    lastPublishedBytes (tick stepId (freshRunner (List.range 16))).2 =
      some ((tick stepId (freshRunner (List.range 16))).2.mem.take
        ((freshRunner (List.range 16)).width *
          (freshRunner (List.range 16)).height * 4)) :=
  tick_success_publishes_memory stepId (freshRunner (List.range 16))
    (by decide) (by decide)

/-- C9: `publish` replaces the pool's published reference by a clone of
the given handle without touching any bytes: the newly published frame's
count rises by exactly 1 (the clone), the previously published frame's
count falls by exactly 1 (its release), and a release deallocates the
backing storage exactly when the count it decrements reaches zero. -/
theorem publish_swaps_reference (h : Heap) (fm : FrameManager) (p q : Nat)
    (h2 : Heap) (fm2 : FrameManager)
    (hlu : fm.last_updated = some q)
    (hne : p ≠ q)
    (hp1 : 1 ≤ (heapGet h p).rc)
    (hq1 : 1 ≤ (heapGet h q).rc)
    (hq2 : (heapGet h q).rc < usizeMod)
    (hok : publish h fm p = some (h2, fm2)) :
    fm2.last_updated = some p ∧
    (heapGet h2 p).rc = (heapGet h p).rc + 1 ∧
    (heapGet h2 q).rc = (heapGet h q).rc - 1 ∧
    (∀ r, (heapGet h2 r).buf = (heapGet h r).buf) ∧
    (∀ h3 r, (heapGet h3 r).alive = true →
      ((heapGet (frameDrop h3 r) r).alive = false ↔
        (heapGet h3 r).rc = 1)) := by
  unfold publish at hok
  cases hcl : frameClone h p with
  | none => rw [hcl] at hok; exact absurd hok (by simp)
  | some h1 =>
    rw [hcl] at hok
    simp only [hlu, Option.some.injEq, Prod.mk.injEq] at hok
    obtain ⟨hh2, hfm2⟩ := hok
    subst hh2
    subst hfm2
    obtain ⟨hltp, hh1⟩ := frameClone_some_spec h h1 p hcl
    have hp_lt : p < h.length := lt_length_of_rc_pos h p (by omega)
    have hq_lt : q < h.length := lt_length_of_rc_pos h q (by omega)
    have hq_same : heapGet h1 q = heapGet h q := by
      rw [hh1]
      exact heapGet_heapSet_ne h p q _ hne
    have hq1_lt : q < h1.length := by
      rw [hh1, heapSet_length]
      exact hq_lt
    refine ⟨rfl, ?_, ?_, ?_, ?_⟩
    · rw [frameDrop_heapGet_ne h1 q p (Ne.symm hne), hh1,
        heapGet_heapSet_self h p _ hp_lt]
    · rw [frameDrop_rc_self h1 q hq1_lt (by rw [hq_same]; exact hq1)
        (by rw [hq_same]; exact hq2), hq_same]
    · intro r
      rw [frameDrop_buf h1 q r]
      exact frameClone_buf h h1 p r hcl
    · intro h3 r halive
      exact frameDrop_alive_iff h3 r halive

/-- C9 witness: publishing frame 1 over the previously published frame 0
increments frame 1's count and decrements frame 0's count by one each. -/
theorem publish_swaps_reference_witness :
    (heapGet publishHeapAfter 1).rc = (heapGet publishHeap 1).rc + 1 ∧
    (heapGet publishHeapAfter 0).rc = (heapGet publishHeap 0).rc - 1 :=
  ⟨(publish_swaps_reference publishHeap publishPool 1 0 publishHeapAfter
      publishPoolAfter (by decide) (by decide) (by decide) (by decide)
      (by decide) (by decide)).2.1,
   (publish_swaps_reference publishHeap publishPool 1 0 publishHeapAfter
      publishPoolAfter (by decide) (by decide) (by decide) (by decide)
      (by decide) (by decide)).2.2.1⟩

end WasmRenderer
